import Mathlib

/-!
Verification of the MealMax repository (meal_max).

The catalog store (`kitchen_model.py`) is embedded shallowly: the SQLite
`meals` table becomes a list of `MealRow` records, each SQL statement
becomes the corresponding pure list operation, and Python exceptions become
`Except String` results.  The battle engine (`battle_model.py`) is not
present under `src/`; its operations are modelled from the specification
(section 4.2) and marked as such.  Python floats are modelled as rationals.
-/

namespace MealMax

/-- A row of the `meals` table: columns
`id, meal, cuisine, price, difficulty, deleted, battles, wins`. -/
structure MealRow where
  id : Nat
  meal : String
  cuisine : String
  price : Rat
  difficulty : String
  deleted : Bool
  battles : Nat
  wins : Nat
deriving Repr, DecidableEq

/-- The `meals` table. -/
abbrev Store := List MealRow

/-- The `Meal` dataclass of `kitchen_model.py` (fields `id, meal, cuisine,
price, difficulty`). -/
structure Meal where
  id : Nat
  meal : String
  cuisine : String
  price : Rat
  difficulty : String
deriving Repr, DecidableEq

/-- `difficulty in ['LOW', 'MED', 'HIGH']`. -/
def validDifficulty (d : String) : Bool :=
  d = "LOW" || d = "MED" || d = "HIGH"

/-- `Meal.__post_init__`: raises when `price < 0` or the difficulty is not
one of LOW, MED, HIGH; otherwise the dataclass value is produced. -/
def mkMeal (id : Nat) (meal cuisine : String) (price : Rat)
    (difficulty : String) : Except String Meal :=
  if price < 0 then
    .error "Price must be a positive value."
  else if ¬ validDifficulty difficulty then
    .error "Difficulty must be LOW, MED, or HIGH."
  else
    .ok ⟨id, meal, cuisine, price, difficulty⟩

/-- `SELECT ... FROM meals WHERE id = ?` followed by `fetchone()`. -/
def findRow (db : Store) (meal_id : Nat) : Option MealRow :=
  db.find? (fun r => r.id = meal_id)

/-- `SELECT ... FROM meals WHERE meal = ?` followed by `fetchone()`. -/
def findRowByName (db : Store) (meal_name : String) : Option MealRow :=
  db.find? (fun r => r.meal = meal_name)

/-- The id SQLite assigns to a freshly inserted row. -/
def nextMealId (db : Store) : Nat :=
  db.foldr (fun r m => max r.id m) 0 + 1

/-- `create_meal`: validates price and difficulty, then inserts; a UNIQUE
violation on the name column becomes a duplicate-name error.  The second
component of the result is the value the Python function returns: the
function body has no `return` statement, so it is always `none`. -/
def create_meal (db : Store) (meal cuisine : String) (price : Rat)
    (difficulty : String) : Except String (Store × Option Nat) :=
  if price ≤ 0 then
    .error ("Invalid price: " ++ toString price ++
      ". Price must be a positive number.")
  else if ¬ validDifficulty difficulty then
    .error ("Invalid difficulty level: " ++ difficulty ++
      ". Must be LOW, MED, or HIGH.")
  else if db.any (fun r => r.meal = meal) then
    .error ("Meal with name " ++ meal ++ " already exists")
  else
    .ok (db ++ [⟨nextMealId db, meal, cuisine, price, difficulty,
      false, 0, 0⟩], none)

/-- `delete_meal`: reads the `deleted` flag (absent row ⇒ `fetchone()`
returns `None`, indexing it raises `TypeError`, rewritten to "not found";
a set flag ⇒ "has been deleted"); otherwise `UPDATE meals SET deleted =
TRUE WHERE id = ?`. -/
def delete_meal (db : Store) (meal_id : Nat) : Except String Store :=
  match findRow db meal_id with
  | none =>
      .error ("Meal with ID " ++ toString meal_id ++ " not found")
  | some row =>
      if row.deleted then
        .error ("Meal with ID " ++ toString meal_id ++ " has been deleted")
      else
        .ok (db.map (fun r =>
          if r.id = meal_id then { r with deleted := true } else r))

/-- `update_meal_stats`: same not-found/deleted checks as `delete_meal`;
on `win` executes `UPDATE meals SET battles = battles + 1, wins = wins + 1`,
on `loss` only `battles = battles + 1`; any other result raises before any
UPDATE is issued. -/
def update_meal_stats (db : Store) (meal_id : Nat) (result : String) :
    Except String Store :=
  match findRow db meal_id with
  | none =>
      .error ("Meal with ID " ++ toString meal_id ++ " not found")
  | some row =>
      if row.deleted then
        .error ("Meal with ID " ++ toString meal_id ++ " has been deleted")
      else if result = "win" then
        .ok (db.map (fun r =>
          if r.id = meal_id then
            { r with battles := r.battles + 1, wins := r.wins + 1 }
          else r))
      else if result = "loss" then
        .ok (db.map (fun r =>
          if r.id = meal_id then { r with battles := r.battles + 1 } else r))
      else
        .error ("Invalid result: " ++ result ++ ". Expected win or loss.")

/-- `get_meal_by_id`: not-found and deleted checks, then constructs the
`Meal` dataclass (whose `__post_init__` re-validates the stored fields). -/
def get_meal_by_id (db : Store) (meal_id : Nat) : Except String Meal :=
  match findRow db meal_id with
  | none =>
      .error ("Meal with ID " ++ toString meal_id ++ " not found")
  | some row =>
      if row.deleted then
        .error ("Meal with ID " ++ toString meal_id ++ " has been deleted")
      else
        mkMeal row.id row.meal row.cuisine row.price row.difficulty

/-- `get_meal_by_name`: like `get_meal_by_id` but keyed on the name. -/
def get_meal_by_name (db : Store) (meal_name : String) : Except String Meal :=
  match findRowByName db meal_name with
  | none =>
      .error ("Meal with name " ++ meal_name ++ " not found")
  | some row =>
      if row.deleted then
        .error ("Meal with name " ++ meal_name ++ " has been deleted")
      else
        mkMeal row.id row.meal row.cuisine row.price row.difficulty

/-- Python `round(x)` on a rational: round half to even (banker's
rounding), as CPython does. -/
def roundHalfEven (q : Rat) : Int :=
  let f : Int := ⌊q⌋
  let frac : Rat := q - f
  if frac < 1 / 2 then f
  else if 1 / 2 < frac then f + 1
  else if f % 2 = 0 then f else f + 1

/-- Python `round(x, 1)`. -/
def round1 (q : Rat) : Rat := (roundHalfEven (10 * q) : Rat) / 10

/-- One leaderboard entry as assembled from a selected row:
`win_pct` column is `wins * 1.0 / battles`, then `round(win_pct * 100, 1)`. -/
structure LBEntry where
  id : Nat
  meal : String
  cuisine : String
  price : Rat
  difficulty : String
  battles : Nat
  wins : Nat
  win_pct : Rat
deriving Repr, DecidableEq

/-- Assembling the leaderboard dictionary from a selected row. -/
def lbRow (r : MealRow) : LBEntry :=
  ⟨r.id, r.meal, r.cuisine, r.price, r.difficulty, r.battles, r.wins,
    round1 (((r.wins : Rat) / (r.battles : Rat)) * 100)⟩

/-- The rows satisfying `WHERE deleted = false AND battles > 0`, assembled
into leaderboard entries. -/
def lbRows (db : Store) : List LBEntry :=
  (db.filter (fun r => !r.deleted && r.battles != 0)).map lbRow

/-- Insert an entry into a list kept in descending key order. -/
def insertDesc (key : LBEntry → Rat) (e : LBEntry) :
    List LBEntry → List LBEntry
  | [] => [e]
  | x :: xs =>
      if key x < key e then e :: x :: xs else x :: insertDesc key e xs

/-- `ORDER BY key DESC`: sort descending on the key. -/
def sortDesc (key : LBEntry → Rat) : List LBEntry → List LBEntry
  | [] => []
  | x :: xs => insertDesc key x (sortDesc key xs)

/-- The sort key the query orders by. -/
def sortKey (sort_by : String) (e : LBEntry) : Rat :=
  if sort_by = "win_pct" then e.win_pct else (e.wins : Rat)

/-- `get_leaderboard`: selects the non-deleted rows with `battles > 0`,
orders them descending by `win_pct` or `wins`, and rejects any other
`sort_by` value. -/
def get_leaderboard (db : Store) (sort_by : String) :
    Except String (List LBEntry) :=
  if sort_by = "win_pct" then
    .ok (sortDesc (fun e => e.win_pct) (lbRows db))
  else if sort_by = "wins" then
    .ok (sortDesc (fun e => (e.wins : Rat)) (lbRows db))
  else
    .error ("Invalid sort_by parameter: " ++ sort_by)

/-- Run a sequence of `update_meal_stats` calls against the store; a call
that raises leaves the store as it was. -/
def runStats (db : Store) (calls : List (Nat × String)) : Store :=
  calls.foldl (fun d c =>
    match update_meal_stats d c.1 c.2 with
    | .ok d' => d'
    | .error _ => d) db

/-- One step of `runStats`: the store after a single `update_meal_stats`
call, unchanged when the call raises. -/
def stepStats (db : Store) (c : Nat × String) : Store :=
  match update_meal_stats db c.1 c.2 with
  | .ok d' => d'
  | .error _ => db

/-- Modelled from the spec: `battle_model.py` is not under `src/` (only its
tests are).  Section 4.2: the difficulty modifier table HIGH→1, MED→2,
LOW→3. -/
def difficulty_modifier (d : String) : Rat :=
  if d = "HIGH" then 1 else if d = "MED" then 2 else 3

/-- Modelled from the spec: `battle_model.py` is not under `src/`.
Section 4.2: `score = price × length_of(cuisine_string) −
difficulty_modifier`. -/
def get_battle_score (m : Meal) : Rat :=
  m.price * (m.cuisine.length : Rat) - difficulty_modifier m.difficulty

/-- Modelled from the spec: the battle engine's private state, an ordered
sequence of at most two combatants. -/
structure BattleModel where
  combatants : List Meal
deriving Repr, DecidableEq

/-- Modelled from the spec: `prep_combatant` appends unless the list
already holds two combatants. -/
def prep_combatant (bm : BattleModel) (m : Meal) :
    Except String BattleModel :=
  if 2 ≤ bm.combatants.length then
    .error "Combatant list is full, cannot add more combatants."
  else
    .ok ⟨bm.combatants ++ [m]⟩

/-- Modelled from the spec: `clear_combatants` empties the list
unconditionally. -/
def clear_combatants (_bm : BattleModel) : BattleModel := ⟨[]⟩

/-- Modelled from the spec: `get_combatants` returns the current list. -/
def get_combatants (bm : BattleModel) : List Meal := bm.combatants

/-- Modelled from the spec: the squashing transform on the absolute score
gap, dividing by the fixed scale constant 100 and clamping to [0,1]. -/
def normalize_delta (delta : Rat) : Rat := min (delta / 100) 1

/-- A recorded call to `update_meal_stats` made by the battle engine. -/
structure StatsCall where
  id : Nat
  result : String
deriving Repr, DecidableEq

/-- Modelled from the spec: `battle()` requires exactly two prepped
combatants; computes both scores, the normalized absolute score delta, and
compares it with the externally drawn random fraction `r`: if
`r < normalized_delta` the higher-scoring combatant wins, otherwise the
other one does (on a tied score the first combatant plays the role of the
higher one).  It then calls `update_meal_stats` with `win` for the winner
and `loss` for the loser, keeps only the winner in the combatant list, and
returns the winner's name.  The result carries the returned name, the new
engine state, and the stats-update calls in order. -/
def battle (bm : BattleModel) (r : Rat) :
    Except String (String × BattleModel × List StatsCall) :=
  match bm.combatants with
  | [c1, c2] =>
      let s1 := get_battle_score c1
      let s2 := get_battle_score c2
      let nd := normalize_delta |s1 - s2|
      let higher := if s1 < s2 then c2 else c1
      let lower := if s1 < s2 then c1 else c2
      let winner := if r < nd then higher else lower
      let loser := if r < nd then lower else higher
      .ok (winner.meal, ⟨[winner]⟩, [⟨winner.id, "win"⟩, ⟨loser.id, "loss"⟩])
  | _ => .error "Two combatants must be prepped for a battle."

/-! ### Helper lemmas -/

theorem mkMeal_ok_iff (id : Nat) (n c : String) (p : Rat) (d : String)
    (m : Meal) :
    mkMeal id n c p d = .ok m ↔
      ¬ p < 0 ∧ validDifficulty d = true ∧ m = ⟨id, n, c, p, d⟩ := by
  unfold mkMeal
  by_cases hp : p < 0
  · simp [hp]
  · by_cases hd : validDifficulty d
    · simp [hp, hd, eq_comm]
    · simp [hp, hd]

theorem mkMeal_fails (id : Nat) (n c : String) (p : Rat) (d : String)
    (h : p < 0 ∨ validDifficulty d = false) :
    ∃ e, mkMeal id n c p d = .error e := by
  rcases h with hp | hd
  · exact ⟨"Price must be a positive value.", by simp [mkMeal, hp]⟩
  · unfold mkMeal
    by_cases hp : p < 0
    · exact ⟨"Price must be a positive value.", by simp [hp]⟩
    · exact ⟨"Difficulty must be LOW, MED, or HIGH.", by simp [hp, hd]⟩

theorem get_map_eq (db : Store) (f : MealRow → MealRow) (i : Nat)
    (hi : i < db.length) (hi' : i < (db.map f).length) :
    (db.map f).get ⟨i, hi'⟩ = f (db.get ⟨i, hi⟩) := by
  simp [List.get_eq_getElem, List.getElem_map]

theorem update_ok_shape (db : Store) (meal_id : Nat) (res : String)
    (db' : Store) (h : update_meal_stats db meal_id res = .ok db') :
    db' = db.map (fun r => if r.id = meal_id then
        { r with battles := r.battles + 1, wins := r.wins + 1 } else r) ∨
    db' = db.map (fun r => if r.id = meal_id then
        { r with battles := r.battles + 1 } else r) := by
  unfold update_meal_stats at h
  split at h
  · cases h
  · split at h
    · cases h
    · split at h
      · exact Or.inl (Except.ok.inj h).symm
      · split at h
        · exact Or.inr (Except.ok.inj h).symm
        · cases h

theorem stepStats_length (db : Store) (c : Nat × String) :
    (stepStats db c).length = db.length := by
  unfold stepStats
  rcases hu : update_meal_stats db c.1 c.2 with e | d'
  · rfl
  · rcases update_ok_shape db c.1 c.2 d' hu with h | h <;> subst h <;> simp

theorem stepStats_wins_le (db : Store) (c : Nat × String) (i : Nat)
    (hi : i < db.length) (h : (db.get ⟨i, hi⟩).wins ≤
      (db.get ⟨i, hi⟩).battles) :
    ∀ hi' : i < (stepStats db c).length,
      ((stepStats db c).get ⟨i, hi'⟩).wins ≤
        ((stepStats db c).get ⟨i, hi'⟩).battles := by
  unfold stepStats
  rcases hu : update_meal_stats db c.1 c.2 with e | d'
  · intro hi'; exact h
  · intro hi'
    rcases update_ok_shape db c.1 c.2 d' hu with rfl | rfl
    · rw [get_map_eq db _ i hi hi']
      by_cases hid : (db.get ⟨i, hi⟩).id = c.1
      · rw [if_pos hid]
        show (db.get ⟨i, hi⟩).wins + 1 ≤ (db.get ⟨i, hi⟩).battles + 1
        omega
      · rw [if_neg hid]; exact h
    · rw [get_map_eq db _ i hi hi']
      by_cases hid : (db.get ⟨i, hi⟩).id = c.1
      · rw [if_pos hid]
        show (db.get ⟨i, hi⟩).wins ≤ (db.get ⟨i, hi⟩).battles + 1
        omega
      · rw [if_neg hid]; exact h

theorem notFound_ne_deleted (s : String) :
    ("Meal with ID " ++ s ++ " not found") ≠
      ("Meal with ID " ++ s ++ " has been deleted") := by
  intro h
  have hl := congrArg String.length h
  simp [String.length_append] at hl
  exact absurd hl (by decide)

end MealMax

namespace MealMax

/-- C1: for every meal, the battle score is `price * length(cuisine)` minus
the difficulty modifier (HIGH→1, MED→2, LOW→3); in particular a meal with
price 12.99, cuisine "Turkish" and difficulty "MED" scores 88.93. -/
theorem battle_score_formula (m : Meal) :
    (m.difficulty = "HIGH" →
      get_battle_score m = m.price * (m.cuisine.length : Rat) - 1) ∧
    (m.difficulty = "MED" →
      get_battle_score m = m.price * (m.cuisine.length : Rat) - 2) ∧
    (m.difficulty = "LOW" →
      get_battle_score m = m.price * (m.cuisine.length : Rat) - 3) ∧
    get_battle_score ⟨1, "Manti", "Turkish", (1299 : Rat) / 100, "MED"⟩ =
      (8893 : Rat) / 100 := by
  refine ⟨?_, ?_, ?_, ?_⟩
  · intro h; simp [get_battle_score, difficulty_modifier, h]
  · intro h; simp [get_battle_score, difficulty_modifier, h]
  · intro h; simp [get_battle_score, difficulty_modifier, h]
  · simp only [get_battle_score,
      show difficulty_modifier "MED" = 2 from rfl]
    norm_num [show String.length "Turkish" = 7 from rfl]

/-- C1 witness: the formula instantiated at the sample meal. -/
theorem battle_score_formula_witness :
    get_battle_score ⟨1, "Manti", "Turkish", (1299 : Rat) / 100, "MED"⟩ =
      (1299 : Rat) / 100 * ((("Turkish" : String).length : Nat) : Rat) - 2 :=
  (battle_score_formula
    ⟨1, "Manti", "Turkish", (1299 : Rat) / 100, "MED"⟩).2.1 rfl

/-- C7: on a valid input the Python `create_meal` inserts the row but
returns `None` (the body has no `return` statement), not the new meal's id
as its own docstring and the claim state. -/
theorem create_meal_returns_no_id :
    create_meal [] "Manti" "Turkish" ((1299 : Rat) / 100) "MED" =
      .ok ([⟨1, "Manti", "Turkish", (1299 : Rat) / 100, "MED",
        false, 0, 0⟩], none) := by
  simp [create_meal, validDifficulty, nextMealId]

/-- C8 counterexample: a `Meal` with price 0 — not strictly greater
than 0 — is accepted by `Meal.__post_init__`, which only rejects
`price < 0`. -/
theorem meal_price_zero_accepted :
    mkMeal 5 "Free" "Test" 0 "MED" = .ok ⟨5, "Free", "Test", 0, "MED"⟩ :=
  rfl

/-- C8 amended: constructing a `Meal` fails exactly when the price is
negative or the difficulty is not one of LOW, MED, HIGH, and succeeds for
every price ≥ 0 with a valid difficulty. -/
theorem meal_validation (id : Nat) (n c : String) (p : Rat) (d : String) :
    (p < 0 ∨ validDifficulty d = false →
      ∃ e, mkMeal id n c p d = .error e) ∧
    (0 ≤ p → validDifficulty d = true →
      mkMeal id n c p d = .ok ⟨id, n, c, p, d⟩) := by
  constructor
  · rintro (hp | hd)
    · exact ⟨"Price must be a positive value.", by simp [mkMeal, hp]⟩
    · unfold mkMeal
      by_cases hp : p < 0
      · exact ⟨"Price must be a positive value.", by simp [hp]⟩
      · exact ⟨"Difficulty must be LOW, MED, or HIGH.", by simp [hp, hd]⟩
  · intro hp hd
    simp [mkMeal, not_lt.mpr hp, hd]

/-- C8 witness: a negative price is rejected and a nonnegative one with a
valid difficulty is accepted. -/
theorem meal_validation_witness :
    (∃ e, mkMeal 2 "Salad" "French" (-5) "LOW" = .error e) ∧
    mkMeal 1 "Pasta" "Italian" ((1099 : Rat) / 100) "MED" =
      .ok ⟨1, "Pasta", "Italian", (1099 : Rat) / 100, "MED"⟩ :=
  ⟨(meal_validation 2 "Salad" "French" (-5) "LOW").1
      (Or.inl (by norm_num)),
    (meal_validation 1 "Pasta" "Italian" ((1099 : Rat) / 100) "MED").2
      (by norm_num) rfl⟩

/-- C3: on an existing, non-deleted meal, `update_meal_stats` with `win`
increments the row's battles and wins counters by exactly 1, with `loss`
increments only the battles counter, and in both cases every other field of
the row — and every row with a different id — is unchanged. -/
theorem update_stats_increments (db : Store) (meal_id : Nat) (row : MealRow)
    (hfind : findRow db meal_id = some row) (hdel : row.deleted = false) :
    (∃ dbw, update_meal_stats db meal_id "win" = .ok dbw ∧
      dbw.length = db.length ∧
      ∀ i (hi : i < db.length) (hi' : i < dbw.length),
        ((db.get ⟨i, hi⟩).id = meal_id →
          (dbw.get ⟨i, hi'⟩).battles = (db.get ⟨i, hi⟩).battles + 1 ∧
          (dbw.get ⟨i, hi'⟩).wins = (db.get ⟨i, hi⟩).wins + 1 ∧
          (dbw.get ⟨i, hi'⟩).id = (db.get ⟨i, hi⟩).id ∧
          (dbw.get ⟨i, hi'⟩).meal = (db.get ⟨i, hi⟩).meal ∧
          (dbw.get ⟨i, hi'⟩).cuisine = (db.get ⟨i, hi⟩).cuisine ∧
          (dbw.get ⟨i, hi'⟩).price = (db.get ⟨i, hi⟩).price ∧
          (dbw.get ⟨i, hi'⟩).difficulty = (db.get ⟨i, hi⟩).difficulty ∧
          (dbw.get ⟨i, hi'⟩).deleted = (db.get ⟨i, hi⟩).deleted) ∧
        ((db.get ⟨i, hi⟩).id ≠ meal_id →
          dbw.get ⟨i, hi'⟩ = db.get ⟨i, hi⟩)) ∧
    (∃ dbl, update_meal_stats db meal_id "loss" = .ok dbl ∧
      dbl.length = db.length ∧
      ∀ i (hi : i < db.length) (hi' : i < dbl.length),
        ((db.get ⟨i, hi⟩).id = meal_id →
          (dbl.get ⟨i, hi'⟩).battles = (db.get ⟨i, hi⟩).battles + 1 ∧
          (dbl.get ⟨i, hi'⟩).wins = (db.get ⟨i, hi⟩).wins ∧
          (dbl.get ⟨i, hi'⟩).id = (db.get ⟨i, hi⟩).id ∧
          (dbl.get ⟨i, hi'⟩).meal = (db.get ⟨i, hi⟩).meal ∧
          (dbl.get ⟨i, hi'⟩).cuisine = (db.get ⟨i, hi⟩).cuisine ∧
          (dbl.get ⟨i, hi'⟩).price = (db.get ⟨i, hi⟩).price ∧
          (dbl.get ⟨i, hi'⟩).difficulty = (db.get ⟨i, hi⟩).difficulty ∧
          (dbl.get ⟨i, hi'⟩).deleted = (db.get ⟨i, hi⟩).deleted) ∧
        ((db.get ⟨i, hi⟩).id ≠ meal_id →
          dbl.get ⟨i, hi'⟩ = db.get ⟨i, hi⟩)) := by
  constructor
  · refine ⟨db.map (fun r => if r.id = meal_id then
      { r with battles := r.battles + 1, wins := r.wins + 1 } else r),
      by simp [update_meal_stats, hfind, hdel], by simp, ?_⟩
    intro i hi hi'
    rw [get_map_eq db _ i hi hi']
    constructor
    · intro h
      rw [List.get_eq_getElem] at h
      simp [h]
    · intro h
      rw [List.get_eq_getElem] at h
      simp [h]
  · refine ⟨db.map (fun r => if r.id = meal_id then
      { r with battles := r.battles + 1 } else r),
      by simp [update_meal_stats, hfind, hdel], by simp, ?_⟩
    intro i hi hi'
    rw [get_map_eq db _ i hi hi']
    constructor
    · intro h
      rw [List.get_eq_getElem] at h
      simp [h]
    · intro h
      rw [List.get_eq_getElem] at h
      simp [h]

/-- C3 witness: a win on the only row of a one-row store. -/
theorem update_stats_increments_witness :
    ∃ dbw,
      update_meal_stats [⟨1, "Manti", "Turkish", 12, "MED", false, 3, 2⟩]
        1 "win" = .ok dbw ∧ dbw.length = 1 := by
  obtain ⟨⟨dbw, h1, h2, _⟩, -⟩ :=
    update_stats_increments
      [⟨1, "Manti", "Turkish", 12, "MED", false, 3, 2⟩] 1
      ⟨1, "Manti", "Turkish", 12, "MED", false, 3, 2⟩ rfl rfl
  exact ⟨dbw, h1, by rw [h2]; rfl⟩

/-- C5: `update_meal_stats` raises the "not found", "has been deleted" or
"invalid result" error when the row is absent, soft-deleted, or the outcome
is neither win nor loss, and whenever it raises any error the store is
unchanged. -/
theorem update_stats_atomic (db : Store) (meal_id : Nat) (result : String) :
    (findRow db meal_id = none →
      update_meal_stats db meal_id result =
        .error ("Meal with ID " ++ toString meal_id ++ " not found")) ∧
    (∀ row, findRow db meal_id = some row → row.deleted = true →
      update_meal_stats db meal_id result =
        .error ("Meal with ID " ++ toString meal_id ++
          " has been deleted")) ∧
    (∀ row, findRow db meal_id = some row → row.deleted = false →
      result ≠ "win" → result ≠ "loss" →
      update_meal_stats db meal_id result =
        .error ("Invalid result: " ++ result ++
          ". Expected win or loss.")) ∧
    (∀ e, update_meal_stats db meal_id result = .error e →
      runStats db [(meal_id, result)] = db) := by
  refine ⟨?_, ?_, ?_, ?_⟩
  · intro h; simp [update_meal_stats, h]
  · intro row h hd; simp [update_meal_stats, h, hd]
  · intro row h hd hw hl; simp [update_meal_stats, h, hd, hw, hl]
  · intro e he; simp [runStats, he]

/-- C5 witness: updating an absent row raises "not found" and leaves the
(empty) store unchanged. -/
theorem update_stats_atomic_witness :
    update_meal_stats [] 5 "win" =
      .error ("Meal with ID " ++ toString 5 ++ " not found") ∧
    runStats [] [(5, "win")] = [] := by
  have h := update_stats_atomic [] 5 "win"
  exact ⟨h.1 rfl, h.2.2.2 _ (h.1 rfl)⟩

/-- C9: `delete_meal` raises "not found" exactly when no row with the id
exists, raises "has been deleted" exactly when the row's deleted flag is
already set (a second delete never silently succeeds), and otherwise sets
the flag. -/
theorem delete_meal_spec (db : Store) (meal_id : Nat) :
    (findRow db meal_id = none ↔
      delete_meal db meal_id =
        .error ("Meal with ID " ++ toString meal_id ++ " not found")) ∧
    ((∃ row, findRow db meal_id = some row ∧ row.deleted = true) ↔
      delete_meal db meal_id =
        .error ("Meal with ID " ++ toString meal_id ++
          " has been deleted")) ∧
    (∀ row, findRow db meal_id = some row → row.deleted = false →
      delete_meal db meal_id =
        .ok (db.map (fun r =>
          if r.id = meal_id then { r with deleted := true } else r))) := by
  rcases hf : findRow db meal_id with - | row
  · have hdel : delete_meal db meal_id =
        .error ("Meal with ID " ++ toString meal_id ++ " not found") := by
      simp [delete_meal, hf]
    refine ⟨⟨fun _ => hdel, fun _ => rfl⟩, ?_, ?_⟩
    · constructor
      · rintro ⟨row, hrow, -⟩; cases hrow
      · intro h
        rw [hdel] at h
        exact absurd (Except.error.inj h) (notFound_ne_deleted _)
    · intro row hrow
      cases hrow
  · cases hd : row.deleted
    · have hdel : delete_meal db meal_id =
          .ok (db.map (fun r =>
            if r.id = meal_id then { r with deleted := true } else r)) := by
        simp [delete_meal, hf, hd]
      refine ⟨?_, ?_, ?_⟩
      · constructor
        · intro h; cases h
        · intro h; rw [hdel] at h; cases h
      · constructor
        · rintro ⟨row', hrow', hd'⟩
          cases Option.some.inj hrow'
          rw [hd] at hd'; simp at hd'
        · intro h; rw [hdel] at h; cases h
      · intro row' hrow' hd'
        exact hdel
    · have hdel : delete_meal db meal_id =
          .error ("Meal with ID " ++ toString meal_id ++
            " has been deleted") := by
        simp [delete_meal, hf, hd]
      refine ⟨?_, ?_, ?_⟩
      · constructor
        · intro h; cases h
        · intro h
          rw [hdel] at h
          exact absurd (Except.error.inj h).symm (notFound_ne_deleted _)
      · exact ⟨fun _ => hdel, fun _ => ⟨row, rfl, hd⟩⟩
      · intro row' hrow' hd'
        cases Option.some.inj hrow'
        rw [hd] at hd'; simp at hd'

/-- C9 witness: deleting from an empty store raises "not found"; deleting
the sole live row sets its flag. -/
theorem delete_meal_spec_witness :
    delete_meal [] 7 = .error ("Meal with ID " ++ toString 7 ++
      " not found") ∧
    delete_meal [⟨1, "Manti", "Turkish", 12, "MED", false, 0, 0⟩] 1 =
      .ok ([⟨1, "Manti", "Turkish", 12, "MED", false, 0, 0⟩].map (fun r =>
        if r.id = 1 then { r with deleted := true } else r)) :=
  ⟨(delete_meal_spec [] 7).1.mp rfl,
    (delete_meal_spec [⟨1, "Manti", "Turkish", 12, "MED", false, 0, 0⟩]
      1).2.2 ⟨1, "Manti", "Turkish", 12, "MED", false, 0, 0⟩ rfl rfl⟩

/-- C10: every meal successfully returned by `get_meal_by_id` or
`get_meal_by_name` has nonnegative price and a valid difficulty, because
the `Meal` constructor re-validates; a stored row violating these bounds
makes the retrieval raise instead of returning. -/
theorem get_meal_validated (db : Store) :
    (∀ meal_id m, get_meal_by_id db meal_id = .ok m →
      0 ≤ m.price ∧ validDifficulty m.difficulty = true) ∧
    (∀ meal_name m, get_meal_by_name db meal_name = .ok m →
      0 ≤ m.price ∧ validDifficulty m.difficulty = true) ∧
    (∀ meal_id row, findRow db meal_id = some row → row.deleted = false →
      row.price < 0 ∨ validDifficulty row.difficulty = false →
      ∃ e, get_meal_by_id db meal_id = .error e) ∧
    (∀ meal_name row, findRowByName db meal_name = some row →
      row.deleted = false →
      row.price < 0 ∨ validDifficulty row.difficulty = false →
      ∃ e, get_meal_by_name db meal_name = .error e) := by
  refine ⟨?_, ?_, ?_, ?_⟩
  · intro meal_id m h
    rcases hf : findRow db meal_id with - | row
    · simp [get_meal_by_id, hf] at h
    · cases hd : row.deleted
      · simp only [get_meal_by_id, hf, hd] at h
        simp at h
        obtain ⟨hp, hv, hm⟩ := (mkMeal_ok_iff _ _ _ _ _ _).mp h
        subst hm
        exact ⟨not_lt.mp hp, hv⟩
      · simp [get_meal_by_id, hf, hd] at h
  · intro meal_name m h
    rcases hf : findRowByName db meal_name with - | row
    · simp [get_meal_by_name, hf] at h
    · cases hd : row.deleted
      · simp only [get_meal_by_name, hf, hd] at h
        simp at h
        obtain ⟨hp, hv, hm⟩ := (mkMeal_ok_iff _ _ _ _ _ _).mp h
        subst hm
        exact ⟨not_lt.mp hp, hv⟩
      · simp [get_meal_by_name, hf, hd] at h
  · intro meal_id row hf hd hbad
    obtain ⟨e, he⟩ := mkMeal_fails row.id row.meal row.cuisine
      row.price row.difficulty hbad
    exact ⟨e, by simp [get_meal_by_id, hf, hd, he]⟩
  · intro meal_name row hf hd hbad
    obtain ⟨e, he⟩ := mkMeal_fails row.id row.meal row.cuisine
      row.price row.difficulty hbad
    exact ⟨e, by simp [get_meal_by_name, hf, hd, he]⟩

/-- C10 witness: a live row with a negative stored price makes
`get_meal_by_id` raise, and a valid row is returned with its fields
validated. -/
theorem get_meal_validated_witness :
    (∃ e, get_meal_by_id [⟨1, "Bad", "Test", -4, "MED", false, 0, 0⟩] 1 =
      .error e) ∧
    (0 ≤ (Meal.mk 1 "Manti" "Turkish" 12 "MED").price ∧
      validDifficulty (Meal.mk 1 "Manti" "Turkish" 12 "MED").difficulty =
        true) := by
  have h := get_meal_validated [⟨1, "Bad", "Test", -4, "MED", false, 0, 0⟩]
  have h2 := get_meal_validated [⟨1, "Manti", "Turkish", 12, "MED",
    false, 0, 0⟩]
  refine ⟨h.2.2.1 1 ⟨1, "Bad", "Test", -4, "MED", false, 0, 0⟩ rfl rfl
    (Or.inl (by norm_num)), ?_⟩
  exact h2.1 1 (Meal.mk 1 "Manti" "Turkish" 12 "MED") rfl

/-- C4: a row satisfying `wins ≤ battles` still satisfies it after any
finite sequence of `update_meal_stats` calls, successful or failing. -/
theorem stats_invariant (db : Store) (calls : List (Nat × String)) (i : Nat)
    (hi : i < db.length)
    (h : (db.get ⟨i, hi⟩).wins ≤ (db.get ⟨i, hi⟩).battles) :
    ∃ hi' : i < (runStats db calls).length,
      ((runStats db calls).get ⟨i, hi'⟩).wins ≤
        ((runStats db calls).get ⟨i, hi'⟩).battles := by
  induction calls generalizing db with
  | nil => exact ⟨hi, h⟩
  | cons c cs ih =>
      have hi2 : i < (stepStats db c).length := by
        rw [stepStats_length]; exact hi
      exact ih (stepStats db c) hi2 (stepStats_wins_le db c i hi h hi2)

/-- C4 witness: the invariant at the sole row of a one-row store after a
win, a loss, and a failing call. -/
theorem stats_invariant_witness :
    ∃ hi' : 0 < (runStats [⟨1, "Manti", "Turkish", 12, "MED", false, 2, 1⟩]
        [(1, "win"), (1, "loss"), (9, "win")]).length,
      ((runStats [⟨1, "Manti", "Turkish", 12, "MED", false, 2, 1⟩]
        [(1, "win"), (1, "loss"), (9, "win")]).get ⟨0, hi'⟩).wins ≤
        ((runStats [⟨1, "Manti", "Turkish", 12, "MED", false, 2, 1⟩]
          [(1, "win"), (1, "loss"), (9, "win")]).get ⟨0, hi'⟩).battles :=
  stats_invariant [⟨1, "Manti", "Turkish", 12, "MED", false, 2, 1⟩]
    [(1, "win"), (1, "loss"), (9, "win")] 0 (by decide) (by decide)

/-- C2: with two prepped combatants of different scores and a random
fraction strictly below the normalized score delta, `battle` declares the
higher-scoring combatant the winner, issues exactly two stats-update calls
(win for the winner, loss for the loser), keeps only the winner in the
combatant list, and returns the winner's name. -/
theorem battle_favored_wins (c1 c2 : Meal) (r : Rat)
    (hr : r < normalize_delta |get_battle_score c1 - get_battle_score c2|)
    (hne : get_battle_score c1 ≠ get_battle_score c2) :
    ∃ w l : Meal,
      ((w = c1 ∧ l = c2) ∨ (w = c2 ∧ l = c1)) ∧
      get_battle_score l < get_battle_score w ∧
      battle ⟨[c1, c2]⟩ r =
        .ok (w.meal, ⟨[w]⟩, [⟨w.id, "win"⟩, ⟨l.id, "loss"⟩]) := by
  rcases lt_or_gt_of_ne hne with h | h
  · exact ⟨c2, c1, Or.inr ⟨rfl, rfl⟩, h, by simp [battle, h, hr]⟩
  · exact ⟨c1, c2, Or.inl ⟨rfl, rfl⟩, h, by
      simp [battle, hr, not_lt.2 h.le]⟩

/-- C2 witness: the two sample meals with the drawn fraction 0.3, which is
below the normalized delta 0.3799. -/
theorem battle_favored_wins_witness :
    ∃ w l : Meal,
      ((w = ⟨1, "Manti", "Turkish", (1299 : Rat) / 100, "MED"⟩ ∧
          l = ⟨2, "Sushi Roll", "Japanese", (1599 : Rat) / 100, "HIGH"⟩) ∨
        (w = ⟨2, "Sushi Roll", "Japanese", (1599 : Rat) / 100, "HIGH"⟩ ∧
          l = ⟨1, "Manti", "Turkish", (1299 : Rat) / 100, "MED"⟩)) ∧
      get_battle_score l < get_battle_score w ∧
      battle ⟨[⟨1, "Manti", "Turkish", (1299 : Rat) / 100, "MED"⟩,
          ⟨2, "Sushi Roll", "Japanese", (1599 : Rat) / 100, "HIGH"⟩]⟩
        ((3 : Rat) / 10) =
        .ok (w.meal, ⟨[w]⟩, [⟨w.id, "win"⟩, ⟨l.id, "loss"⟩]) := by
  have h1 : get_battle_score
      ⟨1, "Manti", "Turkish", (1299 : Rat) / 100, "MED"⟩ =
      (8893 : Rat) / 100 := by
    simp only [get_battle_score,
      show difficulty_modifier "MED" = 2 from rfl]
    norm_num [show String.length "Turkish" = 7 from rfl]
  have h2 : get_battle_score
      ⟨2, "Sushi Roll", "Japanese", (1599 : Rat) / 100, "HIGH"⟩ =
      (12692 : Rat) / 100 := by
    simp only [get_battle_score,
      show difficulty_modifier "HIGH" = 1 from rfl]
    norm_num [show String.length "Japanese" = 8 from rfl]
  refine battle_favored_wins _ _ ((3 : Rat) / 10) ?_ ?_
  · rw [h1, h2, show |(8893 : Rat) / 100 - 12692 / 100| = 3799 / 100 by
      rw [abs_of_neg (by norm_num)]; norm_num]
    rw [normalize_delta, min_eq_left (by norm_num)]
    norm_num
  · rw [h1, h2]; norm_num

/-! Sorting lemmas for the leaderboard. -/

theorem insertDesc_perm (key : LBEntry → Rat) (e : LBEntry)
    (l : List LBEntry) : List.Perm (insertDesc key e l) (e :: l) := by
  induction l with
  | nil => exact .refl _
  | cons x xs ih =>
      unfold insertDesc
      by_cases h : key x < key e
      · rw [if_pos h]
      · rw [if_neg h]
        exact (ih.cons x).trans (List.Perm.swap e x xs)

theorem sortDesc_perm (key : LBEntry → Rat) (l : List LBEntry) :
    List.Perm (sortDesc key l) l := by
  induction l with
  | nil => exact .refl _
  | cons x xs ih =>
      exact (insertDesc_perm key x (sortDesc key xs)).trans (ih.cons x)

theorem insertDesc_pairwise (key : LBEntry → Rat) (e : LBEntry)
    (l : List LBEntry) (h : l.Pairwise (fun a b => key b ≤ key a)) :
    (insertDesc key e l).Pairwise (fun a b => key b ≤ key a) := by
  induction l with
  | nil => simp [insertDesc]
  | cons x xs ih =>
      rw [List.pairwise_cons] at h
      obtain ⟨hx, hxs⟩ := h
      unfold insertDesc
      by_cases hk : key x < key e
      · rw [if_pos hk]
        refine List.Pairwise.cons ?_ (List.Pairwise.cons hx hxs)
        intro b hb
        rcases List.mem_cons.mp hb with rfl | hb'
        · exact hk.le
        · exact (hx b hb').trans hk.le
      · rw [if_neg hk]
        refine List.Pairwise.cons ?_ (ih hxs)
        intro b hb
        rcases List.mem_cons.mp
            ((insertDesc_perm key e xs).mem_iff.mp hb) with rfl | hb'
        · exact not_lt.mp hk
        · exact hx b hb'

theorem sortDesc_pairwise (key : LBEntry → Rat) (l : List LBEntry) :
    (sortDesc key l).Pairwise (fun a b => key b ≤ key a) := by
  induction l with
  | nil => simp [sortDesc]
  | cons x xs ih => exact insertDesc_pairwise key x _ ih

/-- C6: for `sort_by` in {wins, win_pct}, `get_leaderboard` returns
exactly the non-deleted rows with `battles > 0` (a permutation of them,
each augmented with `win_pct = round(100 * wins / battles, 1)`), in
descending order of the requested key; any other `sort_by` raises the
invalid-sort-key error. -/
theorem get_leaderboard_spec (db : Store) (sort_by : String) :
    (sort_by = "wins" ∨ sort_by = "win_pct" →
      ∃ lb, get_leaderboard db sort_by = .ok lb ∧
        lb.Perm ((db.filter (fun r =>
          !r.deleted && r.battles != 0)).map lbRow) ∧
        lb.Pairwise (fun a b => sortKey sort_by b ≤ sortKey sort_by a) ∧
        ∀ e ∈ lb, e.win_pct =
          round1 (100 * (e.wins : Rat) / (e.battles : Rat))) ∧
    (sort_by ≠ "wins" → sort_by ≠ "win_pct" →
      get_leaderboard db sort_by =
        .error ("Invalid sort_by parameter: " ++ sort_by)) := by
  constructor
  · have hwp : ∀ e, sortKey "win_pct" e = e.win_pct := fun e => rfl
    have hw : ∀ e, sortKey "wins" e = (e.wins : Rat) := fun e => rfl
    rintro (rfl | rfl)
    · refine ⟨sortDesc (fun e => (e.wins : Rat)) (lbRows db),
        rfl, sortDesc_perm _ _, ?_, ?_⟩
      · exact (sortDesc_pairwise (fun e => (e.wins : Rat))
          (lbRows db)).imp (fun hab => by rw [hw, hw]; exact hab)
      · intro e he
        obtain ⟨r, hr, rfl⟩ := List.mem_map.mp
          ((sortDesc_perm _ _).mem_iff.mp he)
        show round1 (((r.wins : Rat) / (r.battles : Rat)) * 100) =
          round1 (100 * (r.wins : Rat) / (r.battles : Rat))
        congr 1
        ring
    · refine ⟨sortDesc (fun e => e.win_pct) (lbRows db),
        rfl, sortDesc_perm _ _, ?_, ?_⟩
      · exact (sortDesc_pairwise (fun e => e.win_pct)
          (lbRows db)).imp (fun hab => by rw [hwp, hwp]; exact hab)
      · intro e he
        obtain ⟨r, hr, rfl⟩ := List.mem_map.mp
          ((sortDesc_perm _ _).mem_iff.mp he)
        show round1 (((r.wins : Rat) / (r.battles : Rat)) * 100) =
          round1 (100 * (r.wins : Rat) / (r.battles : Rat))
        congr 1
        ring
  · intro h1 h2
    simp [get_leaderboard, h1, h2]

/-- C6 witness: the leaderboard of a one-row store sorted by wins, and the
invalid-sort-key error. -/
theorem get_leaderboard_spec_witness :
    (∃ lb, get_leaderboard
        [⟨1, "Pasta", "Italian", 10, "MED", false, 5, 4⟩] "wins" =
        .ok lb ∧
      lb.Perm ((([⟨1, "Pasta", "Italian", 10, "MED", false, 5, 4⟩] :
        Store).filter (fun r =>
          !r.deleted && r.battles != 0)).map lbRow)) ∧
    get_leaderboard [] "invalid" =
      .error ("Invalid sort_by parameter: " ++ "invalid") := by
  constructor
  · obtain ⟨lb, ha, hb, -, -⟩ :=
      (get_leaderboard_spec
        [⟨1, "Pasta", "Italian", 10, "MED", false, 5, 4⟩] "wins").1
        (Or.inl rfl)
    exact ⟨lb, ha, hb⟩
  · exact (get_leaderboard_spec [] "invalid").2 (by decide) (by decide)

end MealMax
